import Mathlib

/-!
Verification of the Kindle OCR batch pipeline (img2txt.py, kindle_ocr.py,
txt2md.py, process_kindle.py) against its natural-language specification.

The Python sources are shallowly embedded: file contents are Lean `String`s,
the batch directory is an association list from file name to content, the
external recognition / generation services are parameters (their responses are
inputs to the embedded functions), and Python string operations (`strip`,
`split`, `replace`, slicing, the regex `ocr_(\d+)\.txt`) are re-implemented on
`List Char`, which `String` wraps.  `Char.isAlphanum` stands in for Python's
`str.isalnum` (ASCII fragment; every concrete input used below is ASCII).
-/

/-! ## Text primitives (Python string operations on `List Char`) -/

/-- Whitespace test used by Python's `str.strip` (ASCII fragment). -/
def isSpaceChar (c : Char) : Bool := c.isWhitespace

/-- Model of Python `str.strip`: drop whitespace from both ends. -/
def pyStrip (l : List Char) : List Char :=
  ((l.dropWhile isSpaceChar).reverse.dropWhile isSpaceChar).reverse

/-- Model of Python `str.strip` on `String`. -/
def sstrip (s : String) : String := String.mk (pyStrip s.data)

/-- Numeric value of a digit run, as computed by Python `int(...)`. -/
def digitsVal (l : List Char) : Nat :=
  l.foldl (fun a c => a * 10 + (c.toNat - 48)) 0

/-- Attempt to match the regex `tag(\d+)post` at the head of `l`
(`tag` and `post` are literal character sequences). -/
def matchNumAt (tag post : List Char) (l : List Char) : Option Nat :=
  if tag.isPrefixOf l then
    let rest := l.drop tag.length
    let ds := rest.takeWhile Char.isDigit
    let rest2 := rest.dropWhile Char.isDigit
    if ds ≠ [] ∧ post.isPrefixOf rest2 then some (digitsVal ds) else none
  else none

/-- Model of `re.search` for the pattern `tag(\d+)post`: first match anywhere
in the character list, returning the parsed integer group. -/
def searchNum (tag post : List Char) : List Char → Option Nat
  | [] => none
  | c :: rest =>
    match matchNumAt tag post (c :: rest) with
    | some n => some n
    | none => searchNum tag post rest

/-- Source `img2txt.py` `extract_number`: parse the integer from an
`ocr_<N>.txt` name via `re.search`, defaulting to 0 on no match. -/
def extract_number (name : String) : Nat :=
  (searchNum "ocr_".data ".txt".data name.data).getD 0

/-- Source `img2txt.py` `extract_screenshot_number`: parse the integer from a
`screenshot_<N>.png` name via `re.search`, defaulting to 0 on no match. -/
def extract_screenshot_number (name : String) : Nat :=
  (searchNum "screenshot_".data ".png".data name.data).getD 0

/-- Model of the glob `ocr_*.txt`. -/
def isOcrName (n : String) : Bool :=
  "ocr_".data.isPrefixOf n.data && ".txt".data.isSuffixOf n.data

/-- Model of the glob `screenshot_*.png`. -/
def isScreenshotName (n : String) : Bool :=
  "screenshot_".data.isPrefixOf n.data && ".png".data.isSuffixOf n.data

/-- Fuelled worker for `replaceAll`; the fuel bounds the number of
characters consumed, so structural recursion suffices.  Each step consumes at
least one character while the fuel drops by one, so starting the fuel at the
list's length the first branch is never reached on a non-empty list. -/
def replaceAllAux (pat rep : List Char) : Nat → List Char → List Char
  | 0, l => l
  | _ + 1, [] => []
  | fuel + 1, c :: rest =>
    if pat ≠ [] ∧ pat.isPrefixOf (c :: rest) then
      rep ++ replaceAllAux pat rep fuel ((c :: rest).drop pat.length)
    else
      c :: replaceAllAux pat rep fuel rest

/-- Model of Python `str.replace` for a non-empty pattern: leftmost,
non-overlapping replacement (for an empty pattern the list is returned
unchanged; the source only replaces the literal `screenshot_`). -/
def replaceAll (pat rep l : List Char) : List Char :=
  replaceAllAux pat rep l.length l

/-- Model of Python `str.split('\n')`. -/
def splitLines : List Char → List (List Char)
  | [] => [[]]
  | c :: rest =>
    if c = '\n' then [] :: splitLines rest
    else
      match splitLines rest with
      | [] => [[c]]
      | g :: gs => (c :: g) :: gs

/-- Model of Python's stable `list.sort(key=...)`: insertion sort ascending by
an integer key, keeping the original relative order of equal keys. -/
def insertByKey (key : String → Nat) (a : String) : List String → List String
  | [] => [a]
  | b :: l => if key b < key a then b :: insertByKey key a l else a :: b :: l

/-- Stable sort by integer key (Python `list.sort(key=...)`). -/
def sortByKey (key : String → Nat) (l : List String) : List String :=
  l.foldr (insertByKey key) []

/-! ## Filesystem model: the batch directory as an association list -/

/-- A directory is a list of (file name, file content) pairs. -/
abbrev FS := List (String × String)

/-- Read a file's content by name. -/
def fsLookup : FS → String → Option String
  | [], _ => none
  | p :: rest, n => if p.1 = n then some p.2 else fsLookup rest n

/-- Write a file: overwrite the existing entry or append a new one
(the semantics of Python `open(path, 'w')`). -/
def fsWrite : FS → String → String → FS
  | [], n, c => [(n, c)]
  | p :: rest, n, c => if p.1 = n then (n, c) :: rest else p :: fsWrite rest n c

/-- Names present in the directory. -/
def fsNames (fs : FS) : List String := fs.map Prod.fst

/-- Number of directory entries carrying the name `n`. -/
def countName (fs : FS) (n : String) : Nat :=
  fs.countP (fun p => p.1 = n)

/-- Directory names matching the Merger's glob `ocr_*.txt`, in directory
order; the Merger re-sorts them itself. -/
def ocrNames (dir : FS) : List String := (fsNames dir).filter isOcrName

/-! ## Per-Item Transformer: `img2txt.py` `perform_ocr` -/

/-- Outcome of the recognition-service call for one item: either the call
returned (with `response.text`, possibly absent), or it raised. -/
inductive OcrOutcome where
  | success (text : Option String)
  | failure

/-- Source `img2txt.py` line 97/110: the per-item result file name is the
image stem with `screenshot_` replaced by `ocr_`, plus `.txt`. -/
def ocrNameOf (stem : String) : String :=
  String.mk (replaceAll "screenshot_".data "ocr_".data stem.data) ++ ".txt"

/-- Source `img2txt.py` `perform_ocr` (lines 49-115), with the service call
abstracted into `outcome`.  On success the text is
`response.text.strip() if response.text else ''` and the per-item file is
written only when `save_individual` holds and the text is non-empty; on an
exception the text is `''` and an empty per-item file is written when
`save_individual` holds.  Returns the text and the updated directory. -/
def perform_ocr (outcome : OcrOutcome) (stem : String) (save_individual : Bool)
    (fs : FS) : String × FS :=
  match outcome with
  | OcrOutcome.success t =>
    let text := sstrip (t.getD "")
    if save_individual = true ∧ text ≠ "" then
      (text, fsWrite fs (ocrNameOf stem) text)
    else (text, fs)
  | OcrOutcome.failure =>
    if save_individual = true then ("", fsWrite fs (ocrNameOf stem) "")
    else ("", fs)

/-! ## Merger: `img2txt.py` `merge_ocr_files` -/

/-- Concatenation step of the merge loop (lines 141-150): the in-memory
accumulator and the bytes written to the output handle, threaded through the
per-file iteration; each non-empty stripped content contributes itself plus a
newline to both. -/
def mergeLoop : List String → String → String → String × String
  | [], acc, out => (acc, out)
  | c :: rest, acc, out =>
    let t := sstrip c
    if t = "" then mergeLoop rest acc out
    else mergeLoop rest (acc ++ t ++ "\n") (out ++ t ++ "\n")

/-- Closed form of the merge loop's contribution: each stripped non-empty
content followed by one newline, concatenated in list order. -/
def joinPieces : List String → String
  | [] => ""
  | c :: rest =>
    if sstrip c = "" then joinPieces rest else (sstrip c ++ "\n") ++ joinPieces rest

/-- Content read for a listed file during the merge loop.  The output file
`ocr_output.txt` is opened for writing (hence truncated) before any file is
read, so if it appears in the listing it reads back empty; a file missing or
unreadable contributes nothing (the source swallows per-file read errors),
modelled as empty content. -/
def readAfterTrunc (dir : FS) (n : String) : String :=
  if n = "ocr_output.txt" then "" else (fsLookup dir n).getD ""

/-- Predicate: the listed file contributes text to the merge (its read
content is non-empty after stripping). -/
def liveName (dir : FS) (n : String) : Bool :=
  sstrip (readAfterTrunc dir n) ≠ ""

/-- Source `img2txt.py` `merge_ocr_files` (lines 118-153): sort the listed
files by `extract_number`, return `('', None)` and leave the directory
untouched when there are none; otherwise concatenate the non-empty stripped
contents with a trailing newline each, write the result to `ocr_output.txt`,
and return the merged text with the output location and updated directory.
The directory listing order of the glob is the `listing` parameter. -/
def merge_ocr_files (dir : FS) (listing : List String) :
    String × Option String × FS :=
  let sorted := sortByKey extract_number listing
  if sorted = [] then ("", none, dir)
  else
    let tw := mergeLoop (sorted.map (readAfterTrunc dir)) "" ""
    (tw.1, some "ocr_output.txt", fsWrite dir "ocr_output.txt" tw.2)

/-- Specification-side definition (section 4.4 / 8 of the spec): the merged
artifact is the concatenation, in the given (ascending-index) order, of the
non-empty per-item texts, one newline appended after each. -/
def specMergeText (dir : FS) (ordered : List String) : String :=
  joinPieces (ordered.map (readAfterTrunc dir))

/-- Canonical form of the merged text: the contributing (live) files,
key-sorted, mapped to their contents and concatenated. -/
def mergeCanon (dir : FS) (l : List String) : String :=
  joinPieces ((sortByKey extract_number (l.filter (liveName dir))).map
    (readAfterTrunc dir))

/-! ## Batch phase 1: `img2txt.py` `process_images` and `main` -/

/-- Model of `pathlib.Path.stem` for the discovered `*.png` names: drop the
four-character extension. -/
def stemOf (n : String) : String := String.mk (n.data.take (n.data.length - 4))

/-- Item Locator of `process_images` (lines 159-167): glob
`screenshot_*.png` over the directory names and sort numerically by the
parsed suffix. -/
def locateImages (dirNames : List String) : List String :=
  sortByKey extract_screenshot_number (dirNames.filter isScreenshotName)

/-- Phase-1 loop of `process_images` (lines 175-177): run `perform_ocr` on
each located image in order, threading the directory through. -/
def ocrFold (resp : String → OcrOutcome) (L : List String) (fs : FS) : FS :=
  L.foldl (fun acc n => (perform_ocr (resp n) (stemOf n) true acc).2) fs

/-- Source `img2txt.py` `process_images` (lines 156-182): glob
`screenshot_*.png` over the directory names, sort numerically, raise
`ValueError` when none match (directory untouched), otherwise run
`perform_ocr` on every image in order (each with `save_individual=True`) and
finish by merging all `ocr_*.txt` files.  `resp` gives the recognition
service's outcome per image. -/
def process_images (resp : String → OcrOutcome) (dirNames : List String)
    (fs : FS) : Except String (String × Option String) × FS :=
  let image_files := locateImages dirNames
  if image_files = [] then (Except.error "No screenshot images found", fs)
  else
    let fs2 := ocrFold resp image_files fs
    let m := merge_ocr_files fs2 (ocrNames fs2)
    (Except.ok (m.1, m.2.1), m.2.2)

/-- Source `img2txt.py` `main` (lines 185-225), configuration handling
elided: exit code 1 when `process_images` raises, otherwise exit code 0 (an
empty merged text only prints a warning and returns normally). -/
def img2txt_main (resp : String → OcrOutcome) (dirNames : List String)
    (fs : FS) : Nat × FS :=
  match process_images resp dirNames fs with
  | (Except.error _, fs2) => (1, fs2)
  | (Except.ok _, fs2) => (0, fs2)

/-! ## Identifier derivation -/

/-- Character substitution loop shared verbatim by `txt2md.py` lines 74-79
and `kindle_ocr.py` lines 85-90: keep alphanumerics, space, hyphen,
underscore; substitute everything else with underscore. -/
def substituteUnsafe (l : List Char) : List Char :=
  l.map (fun c => if c.isAlphanum ∨ c = ' ' ∨ c = '-' ∨ c = '_' then c else '_')

/-- Allowed-character predicate of the identifier contract. -/
def allowedChar (c : Char) : Bool :=
  c.isAlphanum || c = ' ' || c = '-' || c = '_'

/-- Source `txt2md.py` `generate_filename_from_text` (lines 50-88) with the
generation-service call abstracted: `none` models both a raised exception and
an absent `response.text`; an empty string is falsy in Python and also yields
the default.  Otherwise the trimmed response is substituted character-wise,
stripped again, and an empty result falls back to `'OCR_Output'`. -/
def generate_filename_from_text (resp : Option String) : String :=
  match resp with
  | none => "OCR_Output"
  | some t =>
    if t = "" then "OCR_Output"
    else
      let filename := pyStrip t.data
      let result := pyStrip (substituteUnsafe filename)
      if result = [] then "OCR_Output" else String.mk result

/-- Source `kindle_ocr.py` `generate_filename` (lines 73-93): first
non-blank line of the OCR text, truncated to `max_length` characters,
stripped, substituted character-wise, spaces replaced by underscores, with
`'OCR_Output'` fallbacks for blank input and empty result. -/
def generate_filename (ocr_text : String) (max_length : Nat) : String :=
  if sstrip ocr_text = "" then "OCR_Output"
  else
    let lines := ((splitLines ocr_text.data).map pyStrip).filter (fun l => l ≠ [])
    match lines with
    | [] => "OCR_Output"
    | l :: _ =>
      let filename := pyStrip (l.take max_length)
      let result := (substituteUnsafe filename).map
        (fun c => if c = ' ' then '_' else c)
      if result = [] then "OCR_Output" else String.mk result

/-! ## Phase 2: `txt2md.py` `main` -/

/-- Source `txt2md.py` `main` (lines 93-185), argument/config handling
elided: result is (exit code, files written by this run).  `ocr_raw` is the
OCR file's content, `mdResp` the generation service's markdown response
(`none` for an absent `response.text`), `nameResp` its response to the
filename prompt, `output_name` the optional `--output-name` override,
`drive_folder` the `GOOGLE_DRIVE_FOLDER` configuration value.  An empty
OCR text returns normally with a warning; an absent or empty markdown
response raises `ValueError` (exit 1) before any file is written. -/
def txt2md_main (ocr_raw : String) (mdResp nameResp : Option String)
    (output_name : Option String) (drive_folder : Option String) : Nat × FS :=
  let ocr_text := sstrip ocr_raw
  if ocr_text = "" then (0, [])
  else
    match mdResp with
    | none => (1, [])
    | some mt =>
      if mt = "" then (1, [])
      else
        let markdown_content := sstrip mt
        let filename :=
          match output_name with
          | some nm => nm
          | none => generate_filename_from_text nameResp
        match drive_folder with
        | none => (1, [])
        | some _ => (0, [(filename ++ ".md", markdown_content)])

/-! ## Publisher: `kindle_ocr.py` `main` (after OCR) -/

/-- Source `kindle_ocr.py` `main` (lines 184-221), from the point where the
OCR text is in hand: write `<title>.txt`, render and write `<title>.md`
(`render` models `MarkdownIt().render`), then upload to the destination store
unless skipped — `upload_to_google_drive` re-raises its exception (line 136),
which `main` catches and turns into `sys.exit(1)` — then build the PDF unless
skipped (`pdf_bytes` models the external `img2pdf` output; a build failure
also exits 1).  Result is (exit code, directory). -/
def kindle_ocr_main (ocr_text : String) (render : String → String)
    (upload_ok pdf_ok : Bool) (pdf_bytes : String)
    (skip_drive skip_pdf : Bool) (dirNames : List String) (fs : FS) :
    Nat × FS :=
  if sstrip ocr_text = "" then (0, fs)
  else
    let filename := generate_filename ocr_text 10
    let fs1 := fsWrite fs (filename ++ ".txt") ocr_text
    let md_content := render ocr_text
    let fs2 := fsWrite fs1 (filename ++ ".md") md_content
    if skip_drive = false ∧ upload_ok = false then (1, fs2)
    else
      if skip_pdf = true then (0, fs2)
      else
        let image_files := dirNames.filter isScreenshotName
        if image_files = [] then (0, fs2)
        else if pdf_ok = true then (0, fsWrite fs2 (filename ++ ".pdf") pdf_bytes)
        else (1, fs2)

/-! ## Helper lemmas: strings -/

theorem str_append_empty (s : String) : s ++ "" = s := by
  cases s with
  | mk l =>
    show String.mk (l ++ []) = String.mk l
    rw [List.append_nil]

theorem str_empty_append (s : String) : "" ++ s = s := by
  cases s with
  | mk l => rfl

theorem str_append_assoc (a b c : String) : a ++ b ++ c = a ++ (b ++ c) := by
  cases a with
  | mk la =>
    cases b with
    | mk lb =>
      cases c with
      | mk lc =>
        show String.mk (la ++ lb ++ lc) = String.mk (la ++ (lb ++ lc))
        rw [List.append_assoc]

/-! ## Helper lemmas: filesystem -/

theorem fsLookup_fsWrite_self (fs : FS) (n c : String) :
    fsLookup (fsWrite fs n c) n = some c := by
  induction fs with
  | nil => simp [fsWrite, fsLookup]
  | cons p rest ih =>
    by_cases h : p.1 = n
    · simp [fsWrite, fsLookup, h]
    · simp [fsWrite, fsLookup, h, ih]

theorem fsLookup_fsWrite_ne (fs : FS) (n c m : String) (h : m ≠ n) :
    fsLookup (fsWrite fs n c) m = fsLookup fs m := by
  induction fs with
  | nil => simp [fsWrite, fsLookup, Ne.symm h]
  | cons p rest ih =>
    by_cases hp : p.1 = n
    · have hpm : p.1 ≠ m := by rw [hp]; exact Ne.symm h
      simp [fsWrite, fsLookup, hp, Ne.symm h, hpm]
    · by_cases hm : p.1 = m
      · simp [fsWrite, fsLookup, hp, hm, h]
      · simp [fsWrite, fsLookup, hp, hm, ih]

theorem countName_eq_zero (fs : FS) (n : String) (h : n ∉ fsNames fs) :
    countName fs n = 0 := by
  induction fs with
  | nil => simp [countName]
  | cons p rest ih =>
    simp only [fsNames, List.map_cons, List.mem_cons] at h
    push_neg at h
    have h1 : ¬ (p.1 = n) := fun hh => h.1 hh.symm
    have h2 : countName rest n = 0 := ih (by simpa [fsNames] using h.2)
    simp only [countName, List.countP_cons, h1] at h2 ⊢
    simp [h2, h1]

theorem countName_fsWrite (fs : FS) (n c : String) (hnd : (fsNames fs).Nodup) :
    countName (fsWrite fs n c) n = 1 := by
  induction fs with
  | nil => simp [fsWrite, countName, List.countP_cons]
  | cons p rest ih =>
    simp only [fsNames, List.map_cons, List.nodup_cons] at hnd
    by_cases h : p.1 = n
    · have hz : countName rest n = 0 := by
        apply countName_eq_zero
        rw [← h]
        exact hnd.1
      simp only [countName, List.countP_cons] at hz ⊢
      simp [fsWrite, h, hz]
    · have h2 := ih hnd.2
      simp only [countName, List.countP_cons] at h2 ⊢
      simp [fsWrite, h, h2]

theorem fsNames_fsWrite (fs : FS) (n c : String) :
    fsNames (fsWrite fs n c)
      = if n ∈ fsNames fs then fsNames fs else fsNames fs ++ [n] := by
  induction fs with
  | nil => simp [fsWrite, fsNames]
  | cons p rest ih =>
    simp only [fsNames] at ih ⊢
    by_cases h : p.1 = n
    · simp [fsWrite, h]
    · have hne : ¬ (n = p.1) := fun hh => h hh.symm
      by_cases hm : n ∈ List.map Prod.fst rest
      · simp [fsWrite, h, hne, hm, ih]
      · simp [fsWrite, h, hne, hm, ih]

/-! ## Claim C1 -/

/-- C1 counterexample: for the empty-but-successful recognition outcome
(`response.text = ''`), `perform_ocr` writes no per-item result file at all —
on an initially empty directory the directory stays empty and `ocr_7.txt` does
not exist, contradicting the claim that exactly one per-item result file
exists after the transformer runs in every outcome. -/
theorem C1_counterexample :
    (perform_ocr (OcrOutcome.success (some "")) "screenshot_7" true []).2 = []
    ∧ fsLookup (perform_ocr (OcrOutcome.success (some "")) "screenshot_7" true []).2
        "ocr_7.txt" = none := by
  constructor
  · rfl
  · rfl

/-- C1 (amended): after `perform_ocr` runs on an item, exactly one per-item
result file `ocr_<N>.txt` exists in the failure outcome (written with empty
content) and in the non-empty-success outcome (written with the trimmed text);
in the empty-but-successful outcome the directory is unchanged, so no per-item
result file is created for that item. -/
theorem C1_per_item_file (t : Option String) (stem : String) (fs : FS)
    (hnd : (fsNames fs).Nodup) :
    (fsLookup (perform_ocr OcrOutcome.failure stem true fs).2 (ocrNameOf stem) = some ""
      ∧ countName (perform_ocr OcrOutcome.failure stem true fs).2 (ocrNameOf stem) = 1)
    ∧ (sstrip (t.getD "") ≠ "" →
        fsLookup (perform_ocr (OcrOutcome.success t) stem true fs).2 (ocrNameOf stem)
            = some (sstrip (t.getD ""))
          ∧ countName (perform_ocr (OcrOutcome.success t) stem true fs).2 (ocrNameOf stem) = 1)
    ∧ (sstrip (t.getD "") = "" →
        (perform_ocr (OcrOutcome.success t) stem true fs).2 = fs) := by
  refine ⟨⟨?_, ?_⟩, ?_, ?_⟩
  · simp [perform_ocr, fsLookup_fsWrite_self]
  · simpa [perform_ocr] using countName_fsWrite fs (ocrNameOf stem) "" hnd
  · intro h
    constructor
    · simp [perform_ocr, h, fsLookup_fsWrite_self]
    · simpa [perform_ocr, h] using
        countName_fsWrite fs (ocrNameOf stem) (sstrip (t.getD "")) hnd
  · intro h
    simp [perform_ocr, h]

/-- C1 witness: the amended statement instantiated at a concrete item
(`screenshot_3`, successful response `" hi "`) and the empty directory. -/
theorem C1_witness :
    ((fsNames ([] : FS)).Nodup)
    ∧ ((fsLookup (perform_ocr OcrOutcome.failure "screenshot_3" true []).2
          (ocrNameOf "screenshot_3") = some ""
        ∧ countName (perform_ocr OcrOutcome.failure "screenshot_3" true []).2
            (ocrNameOf "screenshot_3") = 1)
      ∧ (sstrip ((some " hi ").getD "") ≠ "" →
          fsLookup (perform_ocr (OcrOutcome.success (some " hi ")) "screenshot_3" true []).2
              (ocrNameOf "screenshot_3") = some (sstrip ((some " hi ").getD ""))
            ∧ countName (perform_ocr (OcrOutcome.success (some " hi ")) "screenshot_3" true []).2
                (ocrNameOf "screenshot_3") = 1)
      ∧ (sstrip ((some " hi ").getD "") = "" →
          (perform_ocr (OcrOutcome.success (some " hi ")) "screenshot_3" true []).2 = [])) :=
  ⟨by decide, C1_per_item_file (some " hi ") "screenshot_3" [] (by decide)⟩

/-! ## Helper lemmas: stable sort by key -/

theorem insertByKey_perm (key : String → Nat) (a : String) (l : List String) :
    (insertByKey key a l).Perm (a :: l) := by
  induction l with
  | nil => exact List.Perm.refl _
  | cons b t ih =>
    by_cases h : key b < key a
    · simp only [insertByKey, if_pos h]
      exact (ih.cons b).trans (List.Perm.swap a b t)
    · simp only [insertByKey, if_neg h]
      exact List.Perm.refl _

theorem sortByKey_perm (key : String → Nat) (l : List String) :
    (sortByKey key l).Perm l := by
  induction l with
  | nil => exact List.Perm.refl _
  | cons a t ih =>
    exact (insertByKey_perm key a (sortByKey key t)).trans (ih.cons a)

theorem insertByKey_sorted (key : String → Nat) (a : String) (l : List String)
    (h : l.Pairwise (fun x y => key x ≤ key y)) :
    (insertByKey key a l).Pairwise (fun x y => key x ≤ key y) := by
  induction l with
  | nil => simp [insertByKey]
  | cons b t ih =>
    rw [List.pairwise_cons] at h
    by_cases hlt : key b < key a
    · simp only [insertByKey, if_pos hlt]
      rw [List.pairwise_cons]
      refine ⟨?_, ih h.2⟩
      intro x hx
      have hx2 : x ∈ a :: t := (insertByKey_perm key a t).mem_iff.mp hx
      rcases List.mem_cons.mp hx2 with rfl | hxt
      · exact Nat.le_of_lt hlt
      · exact h.1 x hxt
    · simp only [insertByKey, if_neg hlt]
      rw [List.pairwise_cons]
      constructor
      · intro x hx
        rcases List.mem_cons.mp hx with rfl | hxt
        · exact Nat.le_of_not_lt hlt
        · exact Nat.le_trans (Nat.le_of_not_lt hlt) (h.1 x hxt)
      · rw [List.pairwise_cons]
        exact h

theorem sortByKey_sorted (key : String → Nat) (l : List String) :
    (sortByKey key l).Pairwise (fun x y => key x ≤ key y) := by
  induction l with
  | nil => simp [sortByKey]
  | cons a t ih => exact insertByKey_sorted key a (sortByKey key t) ih

theorem sortByKey_eq_nil_iff (key : String → Nat) (l : List String) :
    sortByKey key l = [] ↔ l = [] := by
  constructor
  · intro h
    have hp := sortByKey_perm key l
    rw [h] at hp
    exact List.Perm.eq_nil hp.symm
  · intro h
    subst h
    rfl

theorem sorted_key_unique (key : String → Nat) (l1 l2 : List String)
    (hp : l1.Perm l2)
    (h1 : l1.Pairwise (fun x y => key x ≤ key y))
    (h2 : l2.Pairwise (fun x y => key x ≤ key y))
    (hnd : (l1.map key).Nodup) : l1 = l2 := by
  have hne1 : l1.Pairwise (fun x y => key x ≠ key y) := List.pairwise_map.mp hnd
  have hnd2 : (l2.map key).Nodup := (hp.map key).nodup hnd
  have hne2 : l2.Pairwise (fun x y => key x ≠ key y) := List.pairwise_map.mp hnd2
  have hs1 : l1.Pairwise (fun x y => key x < key y) :=
    (h1.and hne1).imp (fun h => Nat.lt_of_le_of_ne h.1 h.2)
  have hs2 : l2.Pairwise (fun x y => key x < key y) :=
    (h2.and hne2).imp (fun h => Nat.lt_of_le_of_ne h.1 h.2)
  haveI : IsAntisymm String (fun x y => key x < key y) :=
    ⟨fun a b hab hba => absurd hba (Nat.lt_asymm hab)⟩
  exact List.eq_of_perm_of_sorted hp hs1 hs2

/-! ## Helper lemmas: the merge loop -/

theorem mergeLoop_eq (cs : List String) :
    ∀ acc out, mergeLoop cs acc out = (acc ++ joinPieces cs, out ++ joinPieces cs) := by
  induction cs with
  | nil =>
    intro acc out
    simp [mergeLoop, joinPieces, str_append_empty]
  | cons c rest ih =>
    intro acc out
    by_cases h : sstrip c = ""
    · simp only [mergeLoop, joinPieces, if_pos h]
      exact ih acc out
    · simp only [mergeLoop, joinPieces, if_neg h]
      rw [ih]
      rw [str_append_assoc acc (sstrip c) "\n", str_append_assoc out (sstrip c) "\n",
        str_append_assoc acc (sstrip c ++ "\n") (joinPieces rest),
        str_append_assoc out (sstrip c ++ "\n") (joinPieces rest)]

theorem joinPieces_filter (cs : List String) :
    joinPieces cs = joinPieces (cs.filter (fun c => sstrip c ≠ "")) := by
  induction cs with
  | nil => rfl
  | cons c rest ih =>
    by_cases h : sstrip c = ""
    · simp [joinPieces, h, List.filter_cons, ih]
    · simp [joinPieces, h, List.filter_cons, ih]

theorem filter_map_eq (f : String → String) (p : String → Bool) (l : List String) :
    (l.map f).filter p = (l.filter (fun x => p (f x))).map f := by
  induction l with
  | nil => rfl
  | cons a t ih =>
    by_cases h : p (f a) = true
    · simp [List.filter_cons, h, ih]
    · simp [List.filter_cons, h, ih]

theorem nodup_keys_of_perm (key : String → Nat) (l1 l2 : List String)
    (hp : l1.Perm l2) (h : (l1.map key).Nodup) : (l2.map key).Nodup :=
  (hp.map key).nodup h

theorem mergeText_canon (dir : FS) (l : List String)
    (hk : ((l.filter (liveName dir)).map extract_number).Nodup) :
    (merge_ocr_files dir l).1 = mergeCanon dir l := by
  by_cases hl : sortByKey extract_number l = []
  · have hl2 : l = [] := (sortByKey_eq_nil_iff extract_number l).mp hl
    subst hl2
    rfl
  · simp only [merge_ocr_files, if_neg hl]
    rw [mergeLoop_eq, str_empty_append]
    show joinPieces ((sortByKey extract_number l).map (readAfterTrunc dir))
      = mergeCanon dir l
    rw [joinPieces_filter, filter_map_eq]
    have hfeq : (fun x => decide (sstrip (readAfterTrunc dir x) ≠ "")) = liveName dir := by
      funext x
      rfl
    rw [hfeq]
    have hperm : ((sortByKey extract_number l).filter (liveName dir)).Perm
        (sortByKey extract_number (l.filter (liveName dir))) :=
      ((sortByKey_perm extract_number l).filter (liveName dir)).trans
        (sortByKey_perm extract_number (l.filter (liveName dir))).symm
    have heq : (sortByKey extract_number l).filter (liveName dir)
        = sortByKey extract_number (l.filter (liveName dir)) := by
      apply sorted_key_unique extract_number _ _ hperm
      · exact (sortByKey_sorted extract_number l).filter (liveName dir)
      · exact sortByKey_sorted extract_number (l.filter (liveName dir))
      · exact nodup_keys_of_perm extract_number (l.filter (liveName dir))
          ((sortByKey extract_number l).filter (liveName dir))
          (((sortByKey_perm extract_number l).filter (liveName dir)).symm) hk
    rw [heq]
    rfl

theorem mergeCanon_filter_eq (dir : FS) (la lb : List String)
    (hfp : (la.filter (liveName dir)).Perm (lb.filter (liveName dir)))
    (hk : ((la.filter (liveName dir)).map extract_number).Nodup) :
    mergeCanon dir la = mergeCanon dir lb := by
  have hsa := sortByKey_sorted extract_number (la.filter (liveName dir))
  have hsb := sortByKey_sorted extract_number (lb.filter (liveName dir))
  have hperm : (sortByKey extract_number (la.filter (liveName dir))).Perm
      (sortByKey extract_number (lb.filter (liveName dir))) :=
    ((sortByKey_perm extract_number _).trans hfp).trans
      (sortByKey_perm extract_number _).symm
  have hnds : ((sortByKey extract_number (la.filter (liveName dir))).map
      extract_number).Nodup :=
    nodup_keys_of_perm extract_number _ _ (sortByKey_perm extract_number _).symm hk
  have heq := sorted_key_unique extract_number _ _ hperm hsa hsb hnds
  unfold mergeCanon
  rw [heq]

/-! ## Claim C10 -/

/-- C10: for a non-empty listing, the merged text returned by the Merger
equals, character for character, the content written to `ocr_output.txt` —
the in-memory accumulator and the file writes append identical strings on
every iteration of the merge loop. -/
theorem C10_returned_equals_written (dir : FS) (listing : List String)
    (h : listing ≠ []) :
    fsLookup (merge_ocr_files dir listing).2.2 "ocr_output.txt"
      = some ((merge_ocr_files dir listing).1) := by
  have hs : sortByKey extract_number listing ≠ [] := by
    intro hh
    exact h ((sortByKey_eq_nil_iff extract_number listing).mp hh)
  simp only [merge_ocr_files, if_neg hs]
  rw [mergeLoop_eq]
  simp [fsLookup_fsWrite_self]

/-- C10 witness: a one-file batch. -/
theorem C10_witness :
    (["ocr_1.txt"] ≠ ([] : List String))
    ∧ fsLookup (merge_ocr_files [("ocr_1.txt", "A")] ["ocr_1.txt"]).2.2 "ocr_output.txt"
        = some ((merge_ocr_files [("ocr_1.txt", "A")] ["ocr_1.txt"]).1) :=
  ⟨by decide, C10_returned_equals_written [("ocr_1.txt", "A")] ["ocr_1.txt"] (by decide)⟩

/-! ## Claim C8 -/

/-- C8: with no per-item result files, the Merger returns the empty string
and no output location and leaves the directory untouched instead of raising
(its result type is total); the decision that an empty batch is not an error
is the caller's — `img2txt.py` `main` exits 0 whenever `process_images`
returns, including when the merged text is empty. -/
theorem C8_empty_merge_soft (dir : FS) :
    merge_ocr_files dir [] = ("", none, dir)
    ∧ ∀ (resp : String → OcrOutcome) (dirNames : List String) (fs : FS),
        dirNames.filter isScreenshotName ≠ [] →
        (img2txt_main resp dirNames fs).1 = 0 := by
  constructor
  · rfl
  · intro resp dirNames fs h
    have hs : locateImages dirNames ≠ [] := by
      intro hh
      exact h ((sortByKey_eq_nil_iff extract_screenshot_number _).mp hh)
    simp only [img2txt_main, process_images, if_neg hs]

/-- C8 witness: the Merger on the empty batch, and the caller exiting 0 on a
batch whose only item fails recognition (so the merged text is empty). -/
theorem C8_witness :
    merge_ocr_files ([] : FS) [] = ("", none, ([] : FS))
    ∧ ((["screenshot_1.png"].filter isScreenshotName ≠ [])
      ∧ (img2txt_main (fun _ => OcrOutcome.failure) ["screenshot_1.png"] []).1 = 0) :=
  ⟨(C8_empty_merge_soft []).1,
    ⟨by decide,
      (C8_empty_merge_soft []).2 (fun _ => OcrOutcome.failure)
        ["screenshot_1.png"] [] (by decide)⟩⟩

/-! ## Claim C2 -/

/-- C2: for any listing order `l` of the batch's per-item result files, the
merged text equals the specification-side concatenation over `l2`, the
arrangement of the same files in strictly ascending order of the integer
parsed from each filename's numeric suffix — so the merge is independent of
the filesystem listing order.  (The witness instantiates the 1, 2, 10
example, whose merged output is `"A\nB\nJ\n"`.) -/
theorem C2_merge_numeric_order (dir : FS) (l l2 : List String) (hp : l.Perm l2)
    (hs : l2.Pairwise (fun a b => extract_number a < extract_number b)) :
    (merge_ocr_files dir l).1 = specMergeText dir l2 := by
  by_cases hl : l = []
  · subst hl
    have h2 : l2 = [] := List.Perm.eq_nil hp.symm
    subst h2
    rfl
  · have hnd2 : (l2.map extract_number).Nodup :=
      List.pairwise_map.mpr (hs.imp (fun h => Nat.ne_of_lt h))
    have hps : (sortByKey extract_number l).Perm l2 := (sortByKey_perm _ l).trans hp
    have hnds : ((sortByKey extract_number l).map extract_number).Nodup :=
      nodup_keys_of_perm extract_number l2 _ hps.symm hnd2
    have hEq : sortByKey extract_number l = l2 :=
      sorted_key_unique extract_number _ _ hps (sortByKey_sorted _ l)
        (hs.imp (fun h => Nat.le_of_lt h)) hnds
    have hs0 : sortByKey extract_number l ≠ [] := by
      intro hh
      exact hl ((sortByKey_eq_nil_iff extract_number l).mp hh)
    have hl2 : l2 ≠ [] := by
      intro hh
      rw [hh] at hEq
      exact hs0 hEq
    simp only [merge_ocr_files, hEq, mergeLoop_eq, str_empty_append, if_neg hl2]
    rfl

/-- C2 witness: items with indices 2, 10, 1 listed in that (non-numeric)
order merge to `"A\nB\nJ\n"`, ascending by parsed index, not lexicographic
or listing order. -/
theorem C2_witness :
    (["ocr_10.txt", "ocr_2.txt", "ocr_1.txt"].Perm
        ["ocr_1.txt", "ocr_2.txt", "ocr_10.txt"])
    ∧ (["ocr_1.txt", "ocr_2.txt", "ocr_10.txt"].Pairwise
        (fun a b => extract_number a < extract_number b))
    ∧ (merge_ocr_files [("ocr_2.txt", "B"), ("ocr_10.txt", "J"), ("ocr_1.txt", "A")]
          ["ocr_10.txt", "ocr_2.txt", "ocr_1.txt"]).1
        = specMergeText [("ocr_2.txt", "B"), ("ocr_10.txt", "J"), ("ocr_1.txt", "A")]
            ["ocr_1.txt", "ocr_2.txt", "ocr_10.txt"]
    ∧ specMergeText [("ocr_2.txt", "B"), ("ocr_10.txt", "J"), ("ocr_1.txt", "A")]
          ["ocr_1.txt", "ocr_2.txt", "ocr_10.txt"] = "A\nB\nJ\n" :=
  ⟨by decide, by decide,
    C2_merge_numeric_order
      [("ocr_2.txt", "B"), ("ocr_10.txt", "J"), ("ocr_1.txt", "A")]
      ["ocr_10.txt", "ocr_2.txt", "ocr_1.txt"]
      ["ocr_1.txt", "ocr_2.txt", "ocr_10.txt"] (by decide) (by decide),
    by decide⟩

/-! ## Helper lemmas: the second merge run -/

theorem readAfterTrunc_write_out (dir : FS) (o : String) (n : String) :
    readAfterTrunc (fsWrite dir "ocr_output.txt" o) n = readAfterTrunc dir n := by
  by_cases h : n = "ocr_output.txt"
  · simp [readAfterTrunc, h]
  · simp [readAfterTrunc, h, fsLookup_fsWrite_ne dir "ocr_output.txt" o n h]

theorem liveName_write_out (dir : FS) (o : String) :
    liveName (fsWrite dir "ocr_output.txt" o) = liveName dir := by
  funext n
  simp [liveName, readAfterTrunc_write_out]

theorem mergeCanon_write_out (dir : FS) (o : String) (l : List String) :
    mergeCanon (fsWrite dir "ocr_output.txt" o) l = mergeCanon dir l := by
  have hr : readAfterTrunc (fsWrite dir "ocr_output.txt" o) = readAfterTrunc dir :=
    funext (readAfterTrunc_write_out dir o)
  unfold mergeCanon
  rw [hr, liveName_write_out]

theorem liveName_out_false (dir : FS) : liveName dir "ocr_output.txt" = false := by
  rfl

theorem ocrNames_fsWrite_out (dir : FS) (o : String) :
    ocrNames (fsWrite dir "ocr_output.txt" o)
      = if "ocr_output.txt" ∈ fsNames dir then ocrNames dir
        else ocrNames dir ++ ["ocr_output.txt"] := by
  unfold ocrNames
  rw [fsNames_fsWrite]
  by_cases h : "ocr_output.txt" ∈ fsNames dir
  · rw [if_pos h, if_pos h]
  · rw [if_neg h, if_neg h, List.filter_append]
    have hf : List.filter isOcrName ["ocr_output.txt"] = ["ocr_output.txt"] := by decide
    rw [hf]

/-! ## Claim C9 -/

/-- C9: re-running the Merger on an unchanged set of contributing per-item
result files produces byte-identical output.  `l1` is any listing order of
the first run's glob, `l2` any listing order of the second run's glob (which
additionally contains the `ocr_output.txt` produced by the first run — it is
truncated before being read, so it contributes nothing); provided the
contributing files' parsed indices are distinct, the second run returns the
same merged text and `ocr_output.txt` holds the same bytes after each run. -/
theorem C9_merge_idempotent (dir : FS) (l1 l2 : List String)
    (h1 : l1.Perm (ocrNames dir))
    (h2 : l2.Perm (ocrNames (merge_ocr_files dir l1).2.2))
    (hk : (((ocrNames dir).filter (liveName dir)).map extract_number).Nodup) :
    (merge_ocr_files (merge_ocr_files dir l1).2.2 l2).1 = (merge_ocr_files dir l1).1
    ∧ fsLookup (merge_ocr_files (merge_ocr_files dir l1).2.2 l2).2.2 "ocr_output.txt"
        = fsLookup (merge_ocr_files dir l1).2.2 "ocr_output.txt" := by
  by_cases hl1 : sortByKey extract_number l1 = []
  · have e1 : merge_ocr_files dir l1 = ("", none, dir) := by
      simp [merge_ocr_files, hl1]
    have hl1n : l1 = [] := (sortByKey_eq_nil_iff _ _).mp hl1
    have hno : ocrNames dir = [] := by
      have hx := h1.symm
      rw [hl1n] at hx
      exact List.Perm.eq_nil hx
    rw [e1] at h2
    have hl2n : l2 = [] := by
      have hx := h2
      simp only [hno] at hx
      exact List.Perm.eq_nil hx
    rw [e1, hl2n]
    exact ⟨rfl, rfl⟩
  · have e1 : merge_ocr_files dir l1
        = (joinPieces ((sortByKey extract_number l1).map (readAfterTrunc dir)),
            some "ocr_output.txt",
            fsWrite dir "ocr_output.txt"
              (joinPieces ((sortByKey extract_number l1).map (readAfterTrunc dir)))) := by
      simp only [merge_ocr_files, if_neg hl1, mergeLoop_eq, str_empty_append]
    rw [e1]
    show (merge_ocr_files
        (fsWrite dir "ocr_output.txt"
          (joinPieces ((sortByKey extract_number l1).map (readAfterTrunc dir)))) l2).1
      = joinPieces ((sortByKey extract_number l1).map (readAfterTrunc dir))
    ∧ fsLookup (merge_ocr_files
        (fsWrite dir "ocr_output.txt"
          (joinPieces ((sortByKey extract_number l1).map (readAfterTrunc dir)))) l2).2.2
        "ocr_output.txt"
      = fsLookup (fsWrite dir "ocr_output.txt"
          (joinPieces ((sortByKey extract_number l1).map (readAfterTrunc dir))))
        "ocr_output.txt"
    rw [e1] at h2
    have h2' : l2.Perm (ocrNames (fsWrite dir "ocr_output.txt"
        (joinPieces ((sortByKey extract_number l1).map (readAfterTrunc dir))))) := h2
    have hk1 : ((l1.filter (liveName dir)).map extract_number).Nodup :=
      nodup_keys_of_perm extract_number _ _ (h1.filter (liveName dir)).symm hk
    have t1 : (merge_ocr_files dir l1).1 = mergeCanon dir l1 :=
      mergeText_canon dir l1 hk1
    have t1' : joinPieces ((sortByKey extract_number l1).map (readAfterTrunc dir))
        = mergeCanon dir l1 := by
      rw [← t1, e1]
    have hocr1 := ocrNames_fsWrite_out dir
      (joinPieces ((sortByKey extract_number l1).map (readAfterTrunc dir)))
    have hflive : (ocrNames (fsWrite dir "ocr_output.txt"
        (joinPieces ((sortByKey extract_number l1).map (readAfterTrunc dir))))).filter
          (liveName dir)
        = (ocrNames dir).filter (liveName dir) := by
      rw [hocr1]
      by_cases h : "ocr_output.txt" ∈ fsNames dir
      · rw [if_pos h]
      · rw [if_neg h, List.filter_append]
        have hz : List.filter (liveName dir) ["ocr_output.txt"] = [] := by
          simp [List.filter_cons, liveName_out_false dir]
        rw [hz, List.append_nil]
    have hfl2 : (l2.filter (liveName dir)).Perm ((ocrNames dir).filter (liveName dir)) := by
      have hx := h2'.filter (liveName dir)
      rw [hflive] at hx
      exact hx
    have hkl2 : ((l2.filter (liveName dir)).map extract_number).Nodup :=
      nodup_keys_of_perm extract_number _ _ hfl2.symm hk
    have hmem : "ocr_output.txt" ∈ ocrNames (fsWrite dir "ocr_output.txt"
        (joinPieces ((sortByKey extract_number l1).map (readAfterTrunc dir)))) := by
      rw [hocr1]
      by_cases h : "ocr_output.txt" ∈ fsNames dir
      · rw [if_pos h]
        exact List.mem_filter.mpr ⟨h, rfl⟩
      · rw [if_neg h]
        exact List.mem_append.mpr (Or.inr (by simp))
    have hl2ne : l2 ≠ [] := by
      intro hh
      rw [hh] at h2'
      have hx := List.Perm.eq_nil h2'.symm
      rw [hx] at hmem
      exact absurd hmem (List.not_mem_nil _)
    have hs2 : sortByKey extract_number l2 ≠ [] := fun hh =>
      hl2ne ((sortByKey_eq_nil_iff _ _).mp hh)
    have e2 : merge_ocr_files (fsWrite dir "ocr_output.txt"
        (joinPieces ((sortByKey extract_number l1).map (readAfterTrunc dir)))) l2
        = (joinPieces ((sortByKey extract_number l2).map (readAfterTrunc
            (fsWrite dir "ocr_output.txt"
              (joinPieces ((sortByKey extract_number l1).map (readAfterTrunc dir)))))),
            some "ocr_output.txt",
            fsWrite (fsWrite dir "ocr_output.txt"
              (joinPieces ((sortByKey extract_number l1).map (readAfterTrunc dir))))
              "ocr_output.txt"
              (joinPieces ((sortByKey extract_number l2).map (readAfterTrunc
                (fsWrite dir "ocr_output.txt"
                  (joinPieces ((sortByKey extract_number l1).map (readAfterTrunc dir)))))))) := by
      simp only [merge_ocr_files, if_neg hs2, mergeLoop_eq, str_empty_append]
    have t2 : (merge_ocr_files (fsWrite dir "ocr_output.txt"
        (joinPieces ((sortByKey extract_number l1).map (readAfterTrunc dir)))) l2).1
        = mergeCanon (fsWrite dir "ocr_output.txt"
            (joinPieces ((sortByKey extract_number l1).map (readAfterTrunc dir)))) l2 := by
      apply mergeText_canon
      rw [liveName_write_out]
      exact hkl2
    have t3 : mergeCanon (fsWrite dir "ocr_output.txt"
        (joinPieces ((sortByKey extract_number l1).map (readAfterTrunc dir)))) l2
        = mergeCanon dir l2 := mergeCanon_write_out dir _ l2
    have t4 : mergeCanon dir l2 = mergeCanon dir l1 :=
      mergeCanon_filter_eq dir l2 l1 (hfl2.trans (h1.filter (liveName dir)).symm) hkl2
    have tfin : (merge_ocr_files (fsWrite dir "ocr_output.txt"
        (joinPieces ((sortByKey extract_number l1).map (readAfterTrunc dir)))) l2).1
        = joinPieces ((sortByKey extract_number l1).map (readAfterTrunc dir)) := by
      rw [t2, t3, t4, ← t1']
    constructor
    · exact tfin
    · rw [e2]
      show fsLookup (fsWrite _ "ocr_output.txt" _) "ocr_output.txt"
        = fsLookup (fsWrite dir "ocr_output.txt" _) "ocr_output.txt"
      rw [fsLookup_fsWrite_self, fsLookup_fsWrite_self]
      have hx : joinPieces ((sortByKey extract_number l2).map (readAfterTrunc
          (fsWrite dir "ocr_output.txt"
            (joinPieces ((sortByKey extract_number l1).map (readAfterTrunc dir))))))
          = joinPieces ((sortByKey extract_number l1).map (readAfterTrunc dir)) := by
        have hy := tfin
        rw [e2] at hy
        exact hy
      rw [hx]

/-- C9 witness: a two-file batch merged twice, the second run's listing
containing the first run's `ocr_output.txt` in a different order. -/
theorem C9_witness :
    (["ocr_2.txt", "ocr_1.txt"].Perm
        (ocrNames [("ocr_1.txt", "A"), ("ocr_2.txt", "B")]))
    ∧ (["ocr_output.txt", "ocr_1.txt", "ocr_2.txt"].Perm
        (ocrNames (merge_ocr_files [("ocr_1.txt", "A"), ("ocr_2.txt", "B")]
          ["ocr_2.txt", "ocr_1.txt"]).2.2))
    ∧ ((((ocrNames [("ocr_1.txt", "A"), ("ocr_2.txt", "B")]).filter
        (liveName [("ocr_1.txt", "A"), ("ocr_2.txt", "B")])).map extract_number).Nodup)
    ∧ ((merge_ocr_files
          (merge_ocr_files [("ocr_1.txt", "A"), ("ocr_2.txt", "B")]
            ["ocr_2.txt", "ocr_1.txt"]).2.2
          ["ocr_output.txt", "ocr_1.txt", "ocr_2.txt"]).1
        = (merge_ocr_files [("ocr_1.txt", "A"), ("ocr_2.txt", "B")]
            ["ocr_2.txt", "ocr_1.txt"]).1
      ∧ fsLookup (merge_ocr_files
          (merge_ocr_files [("ocr_1.txt", "A"), ("ocr_2.txt", "B")]
            ["ocr_2.txt", "ocr_1.txt"]).2.2
          ["ocr_output.txt", "ocr_1.txt", "ocr_2.txt"]).2.2 "ocr_output.txt"
        = fsLookup (merge_ocr_files [("ocr_1.txt", "A"), ("ocr_2.txt", "B")]
            ["ocr_2.txt", "ocr_1.txt"]).2.2 "ocr_output.txt") :=
  ⟨by decide, by decide, by decide,
    C9_merge_idempotent [("ocr_1.txt", "A"), ("ocr_2.txt", "B")]
      ["ocr_2.txt", "ocr_1.txt"] ["ocr_output.txt", "ocr_1.txt", "ocr_2.txt"]
      (by decide) (by decide) (by decide)⟩

/-! ## Helper lemmas: the phase-1 fold -/

theorem perform_ocr_preserves (o : OcrOutcome) (stem : String) (fs : FS)
    (m : String) (h : m ≠ ocrNameOf stem) :
    fsLookup (perform_ocr o stem true fs).2 m = fsLookup fs m := by
  match o with
  | OcrOutcome.success t =>
    by_cases hs : sstrip (t.getD "") = ""
    · simp [perform_ocr, hs]
    · simp [perform_ocr, hs, fsLookup_fsWrite_ne fs (ocrNameOf stem) _ m h]
  | OcrOutcome.failure =>
    simp [perform_ocr, fsLookup_fsWrite_ne fs (ocrNameOf stem) "" m h]

theorem ocrFold_preserves (resp : String → OcrOutcome) (L : List String)
    (fs : FS) (m : String) (h : ∀ k ∈ L, m ≠ ocrNameOf (stemOf k)) :
    fsLookup (ocrFold resp L fs) m = fsLookup fs m := by
  induction L generalizing fs with
  | nil => rfl
  | cons a L ih =>
    simp only [ocrFold, List.foldl_cons]
    have step := perform_ocr_preserves (resp a) (stemOf a) fs m
      (h a (List.mem_cons_self a L))
    have tail := ih (perform_ocr (resp a) (stemOf a) true fs).2
      (fun k hk => h k (List.mem_cons_of_mem a hk))
    simp only [ocrFold] at tail
    rw [tail, step]

theorem ocrFold_lookup (resp : String → OcrOutcome) (L : List String) (fs : FS)
    (j : String) (hj : j ∈ L)
    (hu : ∀ k ∈ L, k ≠ j → ocrNameOf (stemOf k) ≠ ocrNameOf (stemOf j)) :
    fsLookup (ocrFold resp L fs) (ocrNameOf (stemOf j))
      = match resp j with
        | OcrOutcome.failure => some ""
        | OcrOutcome.success t =>
          if sstrip (t.getD "") = "" then fsLookup fs (ocrNameOf (stemOf j))
          else some (sstrip (t.getD "")) := by
  induction L generalizing fs with
  | nil => cases hj
  | cons a L ih =>
    simp only [ocrFold, List.foldl_cons]
    by_cases haj : a = j
    · subst haj
      by_cases hjL : a ∈ L
      · have tail2 := ih (perform_ocr (resp a) (stemOf a) true fs).2 hjL
          (fun k hk hkj => hu k (List.mem_cons_of_mem a hk) hkj)
        simp only [ocrFold] at tail2
        rw [tail2]
        cases hr : resp a with
        | failure => rfl
        | success t =>
          by_cases hs : sstrip (t.getD "") = ""
          · have hfs : (perform_ocr (OcrOutcome.success t) (stemOf a) true fs).2 = fs := by
              simp [perform_ocr, hs]
            simp only [hfs]
          · simp [hs]
      · have hpres : fsLookup (ocrFold resp L
            (perform_ocr (resp a) (stemOf a) true fs).2) (ocrNameOf (stemOf a))
            = fsLookup (perform_ocr (resp a) (stemOf a) true fs).2
                (ocrNameOf (stemOf a)) := by
          apply ocrFold_preserves
          intro k hk
          have hkj : k ≠ a := fun hh => hjL (hh ▸ hk)
          exact fun hh => (hu k (List.mem_cons_of_mem a hk) hkj) hh.symm
        show fsLookup (ocrFold resp L (perform_ocr (resp a) (stemOf a) true fs).2)
            (ocrNameOf (stemOf a)) = _
        rw [hpres]
        cases hr : resp a with
        | failure => simp [perform_ocr, fsLookup_fsWrite_self]
        | success t =>
          by_cases hs : sstrip (t.getD "") = ""
          · simp [perform_ocr, hs]
          · simp [perform_ocr, hs, fsLookup_fsWrite_self]
    · have hjL : j ∈ L := by
        rcases List.mem_cons.mp hj with hh | hh
        · exact absurd hh.symm haj
        · exact hh
      have tail := ih (perform_ocr (resp a) (stemOf a) true fs).2 hjL
        (fun k hk hkj => hu k (List.mem_cons_of_mem a hk) hkj)
      simp only [ocrFold] at tail
      rw [tail]
      have hstep : fsLookup (perform_ocr (resp a) (stemOf a) true fs).2
          (ocrNameOf (stemOf j)) = fsLookup fs (ocrNameOf (stemOf j)) := by
        apply perform_ocr_preserves
        exact fun hh => (hu a (List.mem_cons_self a L) haj) hh.symm
      cases hr : resp j with
      | failure => rfl
      | success t =>
        by_cases hs : sstrip (t.getD "") = ""
        · simp [hs, hstep]
        · simp [hs]

/-! ## Claim C3 -/

/-- C3: a recognition-service error on one item does not propagate and does
not halt the batch.  `perform_ocr` returns the empty text for the failed
item; `process_images` still returns normally with the merge of the final
directory (no exception path exists past the locator); the failed item's
per-item file holds the empty string; and every other item whose recognition
succeeded with non-empty text still has its text materialized. -/
theorem C3_failure_isolated (resp : String → OcrOutcome) (dirNames : List String)
    (fs : FS) (j : String)
    (hj : j ∈ locateImages dirNames)
    (hfail : resp j = OcrOutcome.failure)
    (hu : ∀ k1 ∈ locateImages dirNames, ∀ k2 ∈ locateImages dirNames,
        k1 ≠ k2 → ocrNameOf (stemOf k1) ≠ ocrNameOf (stemOf k2)) :
    (perform_ocr (resp j) (stemOf j) true fs).1 = ""
    ∧ process_images resp dirNames fs
        = (Except.ok
            ((merge_ocr_files (ocrFold resp (locateImages dirNames) fs)
                (ocrNames (ocrFold resp (locateImages dirNames) fs))).1,
              (merge_ocr_files (ocrFold resp (locateImages dirNames) fs)
                (ocrNames (ocrFold resp (locateImages dirNames) fs))).2.1),
            (merge_ocr_files (ocrFold resp (locateImages dirNames) fs)
              (ocrNames (ocrFold resp (locateImages dirNames) fs))).2.2)
    ∧ fsLookup (ocrFold resp (locateImages dirNames) fs) (ocrNameOf (stemOf j))
        = some ""
    ∧ ∀ k ∈ locateImages dirNames, ∀ t, resp k = OcrOutcome.success t →
        sstrip (t.getD "") ≠ "" →
        fsLookup (ocrFold resp (locateImages dirNames) fs) (ocrNameOf (stemOf k))
          = some (sstrip (t.getD "")) := by
  have hne : locateImages dirNames ≠ [] := List.ne_nil_of_mem hj
  refine ⟨?_, ?_, ?_, ?_⟩
  · rw [hfail]
    rfl
  · simp only [process_images]
    rw [if_neg hne]
  · have hl := ocrFold_lookup resp (locateImages dirNames) fs j hj
      (fun k hk hkj => hu k hk j hj hkj)
    rw [hl, hfail]
  · intro k hk t hrt hs
    have hl := ocrFold_lookup resp (locateImages dirNames) fs k hk
      (fun k2 hk2 hk2k => hu k2 hk2 k hk hk2k)
    rw [hl, hrt]
    simp [hs]

/-- C3 witness: three items, the middle one failing; its file is the empty
placeholder while a succeeding neighbour's text is materialized. -/
theorem C3_witness :
    fsLookup (ocrFold
        (fun n => if n = "screenshot_2.png" then OcrOutcome.failure
          else OcrOutcome.success (some "T"))
        (locateImages ["screenshot_2.png", "screenshot_1.png", "screenshot_3.png"]) [])
      (ocrNameOf (stemOf "screenshot_2.png")) = some ""
    ∧ fsLookup (ocrFold
        (fun n => if n = "screenshot_2.png" then OcrOutcome.failure
          else OcrOutcome.success (some "T"))
        (locateImages ["screenshot_2.png", "screenshot_1.png", "screenshot_3.png"]) [])
      (ocrNameOf (stemOf "screenshot_3.png")) = some (sstrip ((some "T").getD "")) :=
  ⟨(C3_failure_isolated
      (fun n => if n = "screenshot_2.png" then OcrOutcome.failure
        else OcrOutcome.success (some "T"))
      ["screenshot_2.png", "screenshot_1.png", "screenshot_3.png"] []
      "screenshot_2.png" (by decide) rfl (by decide)).2.2.1,
    (C3_failure_isolated
      (fun n => if n = "screenshot_2.png" then OcrOutcome.failure
        else OcrOutcome.success (some "T"))
      ["screenshot_2.png", "screenshot_1.png", "screenshot_3.png"] []
      "screenshot_2.png" (by decide) rfl (by decide)).2.2.2
      "screenshot_3.png" (by decide) (some "T") rfl (by decide)⟩

/-! ## Claim C6 -/

/-- C6: with zero filenames matching `screenshot_*.png`, `process_images`
raises the batch-fatal error before any per-item processing, so the directory
comes back unchanged (no per-item files, no merged artifact); filenames not
matching the pattern are excluded from the located sequence rather than
causing an error. -/
theorem C6_locator_fatal (resp : String → OcrOutcome) (dirNames : List String)
    (fs : FS) :
    (dirNames.filter isScreenshotName = [] →
      process_images resp dirNames fs
        = (Except.error "No screenshot images found", fs))
    ∧ ∀ n ∈ dirNames, isScreenshotName n = false → n ∉ locateImages dirNames := by
  constructor
  · intro h
    have hs : locateImages dirNames = [] := by
      unfold locateImages
      rw [h]
      rfl
    simp only [process_images]
    rw [if_pos hs]
  · intro n hn hns hmem
    have h1 : n ∈ dirNames.filter isScreenshotName :=
      (sortByKey_perm extract_screenshot_number
        (dirNames.filter isScreenshotName)).mem_iff.mp hmem
    have h2 := (List.mem_filter.mp h1).2
    rw [hns] at h2
    exact Bool.noConfusion h2

/-- C6 witness: a directory with two non-matching names (wrong name, wrong
extension) is batch-fatal and untouched, and neither name is located. -/
theorem C6_witness :
    process_images (fun _ => OcrOutcome.failure)
        ["notes.txt", "screenshot_1.jpg"] [("keep.txt", "k")]
      = (Except.error "No screenshot images found", [("keep.txt", "k")])
    ∧ "screenshot_1.jpg" ∉ locateImages ["notes.txt", "screenshot_1.jpg"] :=
  ⟨(C6_locator_fatal (fun _ => OcrOutcome.failure)
      ["notes.txt", "screenshot_1.jpg"] [("keep.txt", "k")]).1 (by decide),
    (C6_locator_fatal (fun _ => OcrOutcome.failure)
      ["notes.txt", "screenshot_1.jpg"] [("keep.txt", "k")]).2
      "screenshot_1.jpg" (by decide) (by decide)⟩

/-! ## Claim C5 -/

/-- C5: when the generation service returns no usable markdown content
(`response.text` absent or empty), `txt2md.py` `main` raises before any file
is written: the run exits 1 and writes nothing. -/
theorem C5_synthesis_failure (ocr_raw : String) (mdResp nameResp : Option String)
    (output_name drive_folder : Option String)
    (h1 : sstrip ocr_raw ≠ "")
    (h2 : mdResp = none ∨ mdResp = some "") :
    txt2md_main ocr_raw mdResp nameResp output_name drive_folder = (1, []) := by
  rcases h2 with h2 | h2 <;> subst h2 <;> simp [txt2md_main, h1]

/-- C5 witness: non-empty OCR text, absent markdown response. -/
theorem C5_witness :
    (sstrip "Chapter 1" ≠ "")
    ∧ txt2md_main "Chapter 1" none (some "Title") none (some "/drive") = (1, []) :=
  ⟨by decide,
    C5_synthesis_failure "Chapter 1" none (some "Title") none (some "/drive")
      (by decide) (Or.inl rfl)⟩

/-! ## Helper lemmas: identifier characters -/

theorem mem_of_mem_dropWhile (p : Char → Bool) (l : List Char) (c : Char)
    (h : c ∈ l.dropWhile p) : c ∈ l := by
  induction l with
  | nil => simp at h
  | cons a t ih =>
    rw [List.dropWhile_cons] at h
    by_cases hp : p a = true
    · rw [if_pos hp] at h
      exact List.mem_cons_of_mem a (ih h)
    · rw [if_neg hp] at h
      exact h

theorem mem_pyStrip (l : List Char) (c : Char) (h : c ∈ pyStrip l) : c ∈ l := by
  unfold pyStrip at h
  rw [List.mem_reverse] at h
  have h2 := mem_of_mem_dropWhile isSpaceChar _ c h
  rw [List.mem_reverse] at h2
  exact mem_of_mem_dropWhile isSpaceChar l c h2

theorem substituteUnsafe_allowed (l : List Char) (c : Char)
    (h : c ∈ substituteUnsafe l) : allowedChar c = true := by
  rcases List.mem_map.mp h with ⟨a, _, rfl⟩
  by_cases ha : a.isAlphanum = true ∨ a = ' ' ∨ a = '-' ∨ a = '_'
  · simp only [if_pos ha]
    simp only [allowedChar, Bool.or_eq_true, decide_eq_true_eq]
    tauto
  · simp only [if_neg ha]
    decide

/-! ## Claim C4 -/

/-- C4 counterexample: the generation-service output `"???"` — composed
entirely of disallowed characters — derives the identifier `"___"`, not the
fixed default `'OCR_Output'`: the source substitutes and only falls back when
the substituted result is empty, so an all-substituted result does not fall
back as the claim states. -/
theorem C4_counterexample :
    generate_filename_from_text (some "???") = "___"
    ∧ generate_filename_from_text (some "???") ≠ "OCR_Output" := by
  constructor
  · decide
  · decide

/-- C4 (amended): identifier derivation is total and filesystem-safe — for
every generation-service output the derived identifier is non-empty and
contains only allowed characters (alphanumeric, space, hyphen, underscore),
and an absent or empty output falls back to `'OCR_Output'`; but an output
composed entirely of disallowed characters yields a string of underscores
(e.g. `"???"` yields `"___"`), not the default. -/
theorem C4_identifier_safe (resp : Option String) :
    generate_filename_from_text resp ≠ ""
    ∧ (∀ c ∈ (generate_filename_from_text resp).data, allowedChar c = true)
    ∧ (resp = none → generate_filename_from_text resp = "OCR_Output")
    ∧ (resp = some "" → generate_filename_from_text resp = "OCR_Output") := by
  match resp with
  | none =>
    refine ⟨by decide, by decide, fun _ => rfl, fun h => Option.noConfusion h⟩
  | some t =>
    by_cases ht : t = ""
    · subst ht
      refine ⟨by decide, by decide, fun h => Option.noConfusion h, fun _ => rfl⟩
    · have hval : generate_filename_from_text (some t)
          = (if pyStrip (substituteUnsafe (pyStrip t.data)) = [] then "OCR_Output"
             else String.mk (pyStrip (substituteUnsafe (pyStrip t.data)))) := by
        simp [generate_filename_from_text, ht]
      by_cases hres : pyStrip (substituteUnsafe (pyStrip t.data)) = []
      · rw [hval, if_pos hres]
        refine ⟨by decide, by decide, fun h => Option.noConfusion h,
          fun h => absurd (Option.some.inj h) ht⟩
      · rw [hval, if_neg hres]
        refine ⟨?_, ?_, fun h => Option.noConfusion h,
          fun h => absurd (Option.some.inj h) ht⟩
        · intro hh
          apply hres
          have := congrArg String.data hh
          simpa using this
        · intro c hc
          have hc2 : c ∈ pyStrip (substituteUnsafe (pyStrip t.data)) := hc
          exact substituteUnsafe_allowed (pyStrip t.data) c
            (mem_pyStrip (substituteUnsafe (pyStrip t.data)) c hc2)

/-- C4 witness: an output with mixed allowed and disallowed characters. -/
theorem C4_witness :
    generate_filename_from_text (some " My Book! ") ≠ ""
    ∧ (∀ c ∈ (generate_filename_from_text (some " My Book! ")).data,
        allowedChar c = true)
    ∧ ((some " My Book! " = (none : Option String)) →
        generate_filename_from_text (some " My Book! ") = "OCR_Output")
    ∧ ((some " My Book! " = some "") →
        generate_filename_from_text (some " My Book! ") = "OCR_Output") :=
  C4_identifier_safe (some " My Book! ")

/-! ## Claim C7 -/

theorem str_append_right_ne (s a b : String) (h : a.data ≠ b.data) :
    s ++ a ≠ s ++ b := by
  intro he
  apply h
  have hd : s.data ++ a.data = s.data ++ b.data := congrArg String.data he
  exact List.append_cancel_left hd

/-- C7 counterexample: when the destination-store upload fails (and is not
skipped), `upload_to_google_drive` re-raises, `main` catches it and calls
`sys.exit(1)` — the process exits non-zero, contradicting the claim that the
run is still considered successful. -/
theorem C7_counterexample :
    (kindle_ocr_main "X" (fun s => s) false true "" false false [] []).1 = 1
    ∧ (kindle_ocr_main "X" (fun s => s) false true "" false false [] []).1 ≠ 0 := by
  constructor
  · decide
  · decide

/-- C7 (amended): the local writes (`<title>.txt`, then `<title>.md`) happen
before the destination-store upload, and when the upload fails the
already-written local artifacts remain on disk with their contents unchanged
— but the run fails: the process exits 1 because the upload error is
re-raised and caught by `main`'s top-level handler. -/
theorem C7_upload_failure (ocr_text : String) (render : String → String)
    (pdf_ok : Bool) (pdf_bytes : String) (skip_pdf : Bool)
    (dirNames : List String) (fs : FS)
    (h : sstrip ocr_text ≠ "") :
    (kindle_ocr_main ocr_text render false pdf_ok pdf_bytes false skip_pdf
        dirNames fs).1 = 1
    ∧ fsLookup (kindle_ocr_main ocr_text render false pdf_ok pdf_bytes false
          skip_pdf dirNames fs).2
        (generate_filename ocr_text 10 ++ ".md") = some (render ocr_text)
    ∧ fsLookup (kindle_ocr_main ocr_text render false pdf_ok pdf_bytes false
          skip_pdf dirNames fs).2
        (generate_filename ocr_text 10 ++ ".txt") = some ocr_text := by
  have hrun : kindle_ocr_main ocr_text render false pdf_ok pdf_bytes false
      skip_pdf dirNames fs
      = (1, fsWrite (fsWrite fs (generate_filename ocr_text 10 ++ ".txt") ocr_text)
          (generate_filename ocr_text 10 ++ ".md") (render ocr_text)) := by
    simp [kindle_ocr_main, h]
  rw [hrun]
  refine ⟨rfl, ?_, ?_⟩
  · exact fsLookup_fsWrite_self _ _ _
  · rw [fsLookup_fsWrite_ne]
    · exact fsLookup_fsWrite_self _ _ _
    · apply str_append_right_ne
      decide

/-- C7 witness: a run with failing upload retains both local artifacts and
exits 1. -/
theorem C7_witness :
    (sstrip "X" ≠ "")
    ∧ ((kindle_ocr_main "X" (fun s => s ++ "!") false true "P" false false [] []).1 = 1
      ∧ fsLookup (kindle_ocr_main "X" (fun s => s ++ "!") false true "P" false false [] []).2
          (generate_filename "X" 10 ++ ".md") = some ((fun s => s ++ "!") "X")
      ∧ fsLookup (kindle_ocr_main "X" (fun s => s ++ "!") false true "P" false false [] []).2
          (generate_filename "X" 10 ++ ".txt") = some "X") :=
  ⟨by decide,
    C7_upload_failure "X" (fun s => s ++ "!") true "P" false [] [] (by decide)⟩
